import Mathlib

/-!
Shallow embedding of the `toy-paxos` repository: the replica state machine
(`src/paxos/node.rs`), sequence numbers (`src/paxos/seq_num.rs`), the message
model and wire framing (`src/paxos/proposal.rs`, `src/net_proxy.rs`), and a
small-step cluster semantics driving the replica step function, used to check
the specification's claims.

Conventions of the embedding:
* Rust machine integers (`u32`, `u64`, `u128`, `usize`) are `Nat`; truncating
  casts are `% 2^w` where they matter (the wire framing).
* `HashSet<usize>` is `Finset Nat` (`len` is `Finset.card`, `insert` is
  `Finset.insert`).
* A handler that can `panic!` or fail an `assert!` returns
  `Except Unit (NodeState × List Outgoing)`; `.error ()` is the abort.
* Logging is a no-op and is dropped.
-/

namespace ToyPaxos

/-- `SequenceNumber` from `src/paxos/seq_num.rs`: a ballot made of a millisecond
timestamp and the proposing server's id. -/
structure SequenceNumber where
  time_stamp : Nat
  server_id : Nat
deriving DecidableEq

/-- The `Ord` implementation of `SequenceNumber`: compare `time_stamp` first and
break ties by `server_id`. -/
def SequenceNumber.le (a b : SequenceNumber) : Prop :=
  a.time_stamp < b.time_stamp ∨ (a.time_stamp = b.time_stamp ∧ a.server_id ≤ b.server_id)

instance (a b : SequenceNumber) : Decidable (SequenceNumber.le a b) := by
  unfold SequenceNumber.le; infer_instance

/-- Strict version of the `SequenceNumber` order. -/
def SequenceNumber.lt (a b : SequenceNumber) : Prop :=
  a.time_stamp < b.time_stamp ∨ (a.time_stamp = b.time_stamp ∧ a.server_id < b.server_id)

instance (a b : SequenceNumber) : Decidable (SequenceNumber.lt a b) := by
  unfold SequenceNumber.lt; infer_instance

/-- `AcceptedProposal` from `src/paxos/proposal.rs`. -/
structure AcceptedProposal where
  seq : SequenceNumber
  val : Nat
deriving DecidableEq

/-- Proposer-side working state, as constructed and used in
`src/paxos/node.rs` (`Request::Propose` and `handle_response`). -/
structure Proposal where
  seq : SequenceNumber
  value : Option Nat
  wanted_value : Nat
  highest_seq : Option SequenceNumber
  prepared : Finset Nat
  accepted : Finset Nat
deriving DecidableEq

/-- `Request` from `src/paxos/proposal.rs`. -/
inductive Request where
  | propose (value : Nat)
  | prepare (seq : SequenceNumber)
  | accept (seq : SequenceNumber) (value : Nat)
  | learn (value : Nat)
  | query
deriving DecidableEq

/-- `Response` from `src/paxos/proposal.rs`. -/
inductive Response where
  | prepare (acc : Option AcceptedProposal)
  | accepted (seq : SequenceNumber)
  | query (val : Option Nat)
deriving DecidableEq

/-- `Datagram` from `src/paxos/proposal.rs`. -/
inductive Datagram where
  | request (req : Request)
  | response (resp : Response)
deriving DecidableEq

/-- `Outgoing` from `src/paxos/proposal.rs`: a datagram with a destination set. -/
structure Outgoing where
  dst : Finset Nat
  dgram : Datagram
deriving DecidableEq

/-- The replica state of `Node` (`src/paxos/node.rs`), without the channel
endpoints (outgoing messages are returned instead of sent on `tx`). -/
structure NodeState where
  self_id : Nat
  peers_id : Finset Nat
  proposal : Option Proposal
  last_promised : Option SequenceNumber
  last_accepted_proposal : Option AcceptedProposal
  chosen : Option Nat
deriving DecidableEq

/-- `Node::new`. -/
def NodeState.init (self_id : Nat) (peers_id : Finset Nat) : NodeState :=
  ⟨self_id, peers_id, none, none, none, none⟩

/-- `Node::next_seq`, with the wall-clock millisecond reading `now` passed in
explicitly (the Rust code reads `SystemTime::now()`). -/
def nextSeq (self_id now : Nat) : SequenceNumber :=
  ⟨now, self_id⟩

/-- The test `self.last_promised.is_none() || self.last_promised.unwrap() <= seq`
guarding the `Prepare` and `Accept` request handlers. -/
def promisedOk (lp : Option SequenceNumber) (seq : SequenceNumber) : Bool :=
  match lp with
  | none => true
  | some p => decide (p.le seq)

/-- `Node::handle_request` (`src/paxos/node.rs` lines 81-177). `now` is the
clock reading used by `next_seq` in the `Propose` branch. The `Learn` branch's
`assert!(chosen_value == value)` aborts with `.error ()` on mismatch. -/
def handleRequest (s : NodeState) (now src : Nat) (req : Request) :
    Except Unit (NodeState × List Outgoing) :=
  match req with
  | .prepare seq =>
      if promisedOk s.last_promised seq then
        .ok ({ s with last_promised := some seq },
          [⟨{src}, .response (.prepare s.last_accepted_proposal)⟩])
      else
        .ok (s, [])
  | .accept seq value =>
      if promisedOk s.last_promised seq then
        .ok ({ s with last_accepted_proposal := some ⟨seq, value⟩ },
          [⟨{src}, .response (.accepted seq)⟩])
      else
        .ok (s, [])
  | .learn value =>
      match s.chosen with
      | some chosen_value =>
          if chosen_value = value then .ok ({ s with chosen := some value }, [])
          else .error ()
      | none => .ok ({ s with chosen := some value }, [])
  | .propose value =>
      let seq := nextSeq s.self_id now
      .ok ({ s with proposal := some ⟨seq, none, value, none, ∅, ∅⟩ },
        [⟨s.peers_id, .request (.prepare seq)⟩])
  | .query =>
      .ok (s, [⟨{src}, .response (.query s.chosen)⟩])

/-- The value-adoption step of the `Response::Prepare` branch of
`Node::handle_response` (`src/paxos/node.rs` lines 190-196): given the updated
`prepared` set, the peer count, and the promise's optional accepted proposal,
returns the new `(value, highest_seq)` pair.  `get_or_insert` sets
`highest_seq` to the first observed accepted sequence number and never
updates it afterwards; it runs only when the `prepared.len()` conjunct holds
(Rust `&&` short-circuits). -/
def adopt (peersCard : Nat) (p : Proposal) (preparedNew : Finset Nat)
    (acc : Option AcceptedProposal) : Option Nat × Option SequenceNumber :=
  match acc with
  | some ⟨seq, val⟩ =>
      if preparedNew.card ≤ peersCard / 2 + 1 then
        let hs := p.highest_seq.getD seq
        (if hs.le seq then some val else p.value, some hs)
      else (p.value, p.highest_seq)
  | none => (p.value, p.highest_seq)

/-- `Node::handle_response` (`src/paxos/node.rs` lines 179-254). The two
`panic!` arms (a `Prepare`/`Accepted` response with no active proposal) and the
`assert!(proposal.value.is_some())` abort with `.error ()`. -/
def handleResponse (s : NodeState) (src : Nat) (resp : Response) :
    Except Unit (NodeState × List Outgoing) :=
  match resp with
  | .prepare acc =>
      match s.proposal with
      | none => .error ()
      | some p =>
          let preparedNew := insert src p.prepared
          let va := adopt s.peers_id.card p preparedNew acc
          if preparedNew.card = s.peers_id.card / 2 + 1 then
            let v := va.1.getD p.wanted_value
            .ok ({ s with proposal := some { p with
                    prepared := preparedNew, value := some v, highest_seq := va.2 } },
              [⟨preparedNew, .request (.accept p.seq v)⟩])
          else
            .ok ({ s with proposal := some { p with
                    prepared := preparedNew, value := va.1, highest_seq := va.2 } }, [])
  | .accepted seq =>
      match s.proposal with
      | none => .error ()
      | some p =>
          if seq = p.seq then
            let acceptedNew := insert src p.accepted
            if acceptedNew.card = 1 + s.peers_id.card / 2 then
              match p.value with
              | none => .error ()
              | some v =>
                  .ok ({ s with proposal := some { p with accepted := acceptedNew } },
                    [⟨s.peers_id, .request (.learn v)⟩])
            else
              .ok ({ s with proposal := some { p with accepted := acceptedNew } }, [])
          else
            .ok (s, [])
  | .query _ => .ok (s, [])

/-- `Node::handle_incoming`: dispatch on the datagram kind. -/
def handleIncoming (s : NodeState) (now src : Nat) (dgram : Datagram) :
    Except Unit (NodeState × List Outgoing) :=
  match dgram with
  | .request req => handleRequest s now src req
  | .response resp => handleResponse s src resp

/-! ### Cluster semantics

A cluster of replicas driven by the replica step function: the network proxy
layer (`src/net_proxy.rs`) turns each `Outgoing{dst, dgram}` into one
point-to-point send per destination id, with best-effort delivery.  A cluster
state is the replica states plus the multiset of in-flight point-to-point
packets; a step either injects a client `Propose` (as the harness in
`src/shell.rs` does, from client id 0) or delivers one in-flight packet to its
destination.  An execution is finite, and packets may remain undelivered
(best-effort transport). -/

/-- One point-to-point packet: `src` is the sender's `self_id` stamped by
`encode_with_src`, `dst` a single destination id taken from `Outgoing.dst`. -/
structure Packet where
  src : Nat
  dst : Nat
  dgram : Datagram
deriving DecidableEq

/-- The elements of a `Finset Nat` in ascending order (insertion sort, so that
it reduces inside the kernel). -/
def sortedIds (s : Finset Nat) : List Nat :=
  Quot.liftOn s.val (fun l => l.insertionSort (· ≤ ·)) (fun l₁ l₂ h =>
    List.eq_of_perm_of_sorted
      (((l₁.perm_insertionSort (· ≤ ·)).trans h).trans
        (l₂.perm_insertionSort (· ≤ ·)).symm)
      (l₁.sorted_insertionSort (· ≤ ·)) (l₂.sorted_insertionSort (· ≤ ·)))

/-- Expand an `Outgoing` batch from node `sender` into point-to-point packets,
one per destination id. -/
def expandOut (sender : Nat) (outs : List Outgoing) : List Packet :=
  (outs.map (fun o => (sortedIds o.dst).map (fun d => ⟨sender, d, o.dgram⟩))).flatten

/-- A cluster state: one replica state per id, plus the in-flight packets. -/
structure Cluster where
  nodes : Nat → NodeState
  net : List Packet

/-- An execution event: a client `Propose` injected at `target` with the
millisecond clock reading `now` (client id 0, as in `Console::propose`), or
delivery of one in-flight packet. -/
inductive Event where
  | clientPropose (target : Nat) (now : Nat) (value : Nat)
  | deliver (p : Packet)

/-- One cluster step.  Delivery requires the packet to be in flight and
consumes it; a handler abort (`panic!` / failed `assert!`) aborts the
execution.  Delivered datagrams never reach the `Propose` branch in the
scripts below, so the clock reading passed to `handleIncoming` is unused
there and fixed to `0`. -/
def step (c : Cluster) (e : Event) : Except Unit Cluster :=
  match e with
  | .clientPropose t now v =>
      match handleRequest (c.nodes t) now 0 (.propose v) with
      | .error _ => .error ()
      | .ok (s, outs) => .ok ⟨Function.update c.nodes t s, c.net ++ expandOut t outs⟩
  | .deliver p =>
      if p ∈ c.net then
        match handleIncoming (c.nodes p.dst) 0 p.src p.dgram with
        | .error _ => .error ()
        | .ok (s, outs) =>
            .ok ⟨Function.update c.nodes p.dst s, c.net.erase p ++ expandOut p.dst outs⟩
      else .error ()

/-- Run a finite execution script. -/
def runScript (c : Cluster) : List Event → Except Unit Cluster
  | [] => .ok c
  | e :: es =>
      match step c e with
      | .error _ => .error ()
      | .ok c => runScript c es

/-- The initial cluster over a peer set, as built by `Console::start_servers`:
every replica id gets the same full peer set (which includes itself). -/
def initCluster (peers : Finset Nat) : Cluster :=
  ⟨fun i => NodeState.init i peers, []⟩

/-! ### Wire framing (`Datagram::encode_with_src`, `Proxy::read_incoming`)

Bytes are `Nat` (each `< 256` for well-formed data).  `bincode::serialize`
with its default configuration is embedded concretely: little-endian
fixed-width integers (`u32` 4 bytes, `u64`/`usize` 8 bytes, `u128` 16 bytes),
enum discriminants as `u32`, `Option` as a one-byte tag. -/

/-- `k` little-endian bytes of `n`. -/
def toLE : Nat → Nat → List Nat
  | 0, _ => []
  | k + 1, n => n % 256 :: toLE k (n / 256)

/-- Read `k` little-endian bytes; returns the value and the rest. -/
def dLE : Nat → List Nat → Option (Nat × List Nat)
  | 0, bs => some (0, bs)
  | _ + 1, [] => none
  | k + 1, b :: bs => (dLE k bs).map (fun x => (b + 256 * x.1, x.2))

/-- `k` big-endian bytes of `n` (as written by `put_uint_be`). -/
def toBE : Nat → Nat → List Nat
  | 0, _ => []
  | k + 1, n => n / 256 ^ k :: toBE k (n % 256 ^ k)

/-- Read `k` big-endian bytes (as `read_u64` does for `k = 8`). -/
def dBE : Nat → List Nat → Option (Nat × List Nat)
  | 0, bs => some (0, bs)
  | _ + 1, [] => none
  | k + 1, b :: bs => (dBE k bs).map (fun x => (b * 256 ^ k + x.1, x.2))

/-- Serialization of `SequenceNumber { time_stamp: u128, server_id: usize }`,
fields in declaration order. -/
def serSeq (q : SequenceNumber) : List Nat :=
  toLE 16 q.time_stamp ++ toLE 8 q.server_id

def deSeq (bs : List Nat) : Option (SequenceNumber × List Nat) := do
  let (t, bs) ← dLE 16 bs
  let (i, bs) ← dLE 8 bs
  some (⟨t, i⟩, bs)

/-- Serialization of `Option<AcceptedProposal>`: a one-byte tag, then the
`seq` and `val` fields. -/
def serOptAcc : Option AcceptedProposal → List Nat
  | none => [0]
  | some a => 1 :: (serSeq a.seq ++ toLE 4 a.val)

def deOptAcc : List Nat → Option (Option AcceptedProposal × List Nat)
  | 0 :: bs => some (none, bs)
  | 1 :: bs => do
      let (q, bs) ← deSeq bs
      let (v, bs) ← dLE 4 bs
      some (some ⟨q, v⟩, bs)
  | _ => none

/-- Serialization of `Request`: `u32` variant discriminant, then the payload. -/
def serRequest : Request → List Nat
  | .propose v => toLE 4 0 ++ toLE 4 v
  | .prepare q => toLE 4 1 ++ serSeq q
  | .accept q v => toLE 4 2 ++ (serSeq q ++ toLE 4 v)
  | .learn v => toLE 4 3 ++ toLE 4 v
  | .query => toLE 4 4

def deRequest (bs : List Nat) : Option (Request × List Nat) := do
  let (tag, bs) ← dLE 4 bs
  match tag with
  | 0 => do
      let (v, bs) ← dLE 4 bs
      some (.propose v, bs)
  | 1 => do
      let (q, bs) ← deSeq bs
      some (.prepare q, bs)
  | 2 => do
      let (q, bs) ← deSeq bs
      let (v, bs) ← dLE 4 bs
      some (.accept q v, bs)
  | 3 => do
      let (v, bs) ← dLE 4 bs
      some (.learn v, bs)
  | 4 => some (.query, bs)
  | _ => none

/-- Serialization of `Response`: `u32` variant discriminant, then the payload
(`Option<u32>` again with a one-byte tag). -/
def serResponse : Response → List Nat
  | .prepare acc => toLE 4 0 ++ serOptAcc acc
  | .accepted q => toLE 4 1 ++ serSeq q
  | .query none => toLE 4 2 ++ [0]
  | .query (some v) => toLE 4 2 ++ (1 :: toLE 4 v)

def deResponse (bs : List Nat) : Option (Response × List Nat) := do
  let (tag, bs) ← dLE 4 bs
  match tag with
  | 0 => do
      let (acc, bs) ← deOptAcc bs
      some (.prepare acc, bs)
  | 1 => do
      let (q, bs) ← deSeq bs
      some (.accepted q, bs)
  | 2 =>
      match bs with
      | 0 :: bs => some (.query none, bs)
      | 1 :: bs => do
          let (v, bs) ← dLE 4 bs
          some (.query (some v), bs)
      | _ => none
  | _ => none

/-- Serialization of `Datagram`. -/
def serDatagram : Datagram → List Nat
  | .request r => toLE 4 0 ++ serRequest r
  | .response r => toLE 4 1 ++ serResponse r

def deDatagram (bs : List Nat) : Option (Datagram × List Nat) := do
  let (tag, bs) ← dLE 4 bs
  match tag with
  | 0 => do
      let (r, bs) ← deRequest bs
      some (.request r, bs)
  | 1 => do
      let (r, bs) ← deResponse bs
      some (.response r, bs)
  | _ => none

/-- Well-formedness of the machine-integer fields: `time_stamp : u128`,
`server_id : usize` (64-bit), values `u32`. -/
def seqWf (q : SequenceNumber) : Bool :=
  decide (q.time_stamp < 256 ^ 16) && decide (q.server_id < 256 ^ 8)

def accWf (a : AcceptedProposal) : Bool :=
  seqWf a.seq && decide (a.val < 256 ^ 4)

def optAccWf : Option AcceptedProposal → Bool
  | none => true
  | some a => accWf a

def requestWf : Request → Bool
  | .propose v => decide (v < 256 ^ 4)
  | .prepare q => seqWf q
  | .accept q v => seqWf q && decide (v < 256 ^ 4)
  | .learn v => decide (v < 256 ^ 4)
  | .query => true

def responseWf : Response → Bool
  | .prepare acc => optAccWf acc
  | .accepted q => seqWf q
  | .query none => true
  | .query (some v) => decide (v < 256 ^ 4)

def dgramWf : Datagram → Bool
  | .request r => requestWf r
  | .response r => responseWf r

/-- `Datagram::encode_with_src` (`src/paxos/proposal.rs` lines 49-59): the
8-byte big-endian source id (`src as u64`, hence `% 2^64`), the 8-byte
big-endian payload length, then the serialized datagram. -/
def encode_with_src (d : Datagram) (src : Nat) : List Nat :=
  let data := serDatagram d
  toBE 8 (src % 2 ^ 64) ++ (toBE 8 data.length ++ data)

/-- `Proxy::read_incoming` (`src/net_proxy.rs` lines 36-46): read the source
id and the payload length as big-endian `u64`s, read exactly `len` payload
bytes into a 512-byte buffer (shorter input is an EOF error, a length above
512 panics on the slice; both are `none` here), and deserialize them. -/
def read_incoming (bs : List Nat) : Option (Nat × Datagram) := do
  let (src, bs) ← dBE 8 bs
  let (len, bs) ← dBE 8 bs
  if bs.length < len then none
  else if 512 < len then none
  else
    match deDatagram (bs.take len) with
    | some (d, _) => some (src, d)
    | none => none

/-! ### Concrete inputs used by the claim theorems -/

/-- A four-round execution script on the cluster `{1,2,3,4,5}` (strict
majority 3).  Round 1: node 1 proposes 1 with ballot (5,1); only node 1 itself
receives the Accept.  Round 2: node 3 proposes 3 with ballot (7,3); only
node 3 receives the Accept.  Round 3: node 2 proposes 2 with ballot (10,2) and
drives it to a full majority `{2,4,5}`; node 2 learns 2.  Round 4: node 4
proposes 4 with ballot (12,4) and collects promises from nodes 1, 2, 3 whose
accepted proposals arrive in the order (5,1)↦1, (10,2)↦2, (7,3)↦3; the
proposer's `highest_seq` latches on (5,1) and the last arrival overwrites the
adopted value with 3, which then reaches the majority `{1,2,3}`; node 4
learns 3.  Every delivered packet was produced by the protocol itself;
undelivered packets model best-effort transport. -/
def agreementScript : List Event :=
  [ .clientPropose 1 5 1
  , .deliver ⟨1, 1, .request (.prepare ⟨5, 1⟩)⟩
  , .deliver ⟨1, 2, .request (.prepare ⟨5, 1⟩)⟩
  , .deliver ⟨1, 3, .request (.prepare ⟨5, 1⟩)⟩
  , .deliver ⟨1, 1, .response (.prepare none)⟩
  , .deliver ⟨2, 1, .response (.prepare none)⟩
  , .deliver ⟨3, 1, .response (.prepare none)⟩
  , .deliver ⟨1, 1, .request (.accept ⟨5, 1⟩ 1)⟩
  , .clientPropose 3 7 3
  , .deliver ⟨3, 3, .request (.prepare ⟨7, 3⟩)⟩
  , .deliver ⟨3, 4, .request (.prepare ⟨7, 3⟩)⟩
  , .deliver ⟨3, 5, .request (.prepare ⟨7, 3⟩)⟩
  , .deliver ⟨3, 3, .response (.prepare none)⟩
  , .deliver ⟨4, 3, .response (.prepare none)⟩
  , .deliver ⟨5, 3, .response (.prepare none)⟩
  , .deliver ⟨3, 3, .request (.accept ⟨7, 3⟩ 3)⟩
  , .clientPropose 2 10 2
  , .deliver ⟨2, 2, .request (.prepare ⟨10, 2⟩)⟩
  , .deliver ⟨2, 4, .request (.prepare ⟨10, 2⟩)⟩
  , .deliver ⟨2, 5, .request (.prepare ⟨10, 2⟩)⟩
  , .deliver ⟨2, 2, .response (.prepare none)⟩
  , .deliver ⟨4, 2, .response (.prepare none)⟩
  , .deliver ⟨5, 2, .response (.prepare none)⟩
  , .deliver ⟨2, 2, .request (.accept ⟨10, 2⟩ 2)⟩
  , .deliver ⟨2, 4, .request (.accept ⟨10, 2⟩ 2)⟩
  , .deliver ⟨2, 5, .request (.accept ⟨10, 2⟩ 2)⟩
  , .deliver ⟨2, 2, .response (.accepted ⟨10, 2⟩)⟩
  , .deliver ⟨4, 2, .response (.accepted ⟨10, 2⟩)⟩
  , .deliver ⟨5, 2, .response (.accepted ⟨10, 2⟩)⟩
  , .deliver ⟨2, 2, .request (.learn 2)⟩
  , .clientPropose 4 12 4
  , .deliver ⟨4, 1, .request (.prepare ⟨12, 4⟩)⟩
  , .deliver ⟨4, 2, .request (.prepare ⟨12, 4⟩)⟩
  , .deliver ⟨4, 3, .request (.prepare ⟨12, 4⟩)⟩
  , .deliver ⟨1, 4, .response (.prepare (some ⟨⟨5, 1⟩, 1⟩))⟩
  , .deliver ⟨2, 4, .response (.prepare (some ⟨⟨10, 2⟩, 2⟩))⟩
  , .deliver ⟨3, 4, .response (.prepare (some ⟨⟨7, 3⟩, 3⟩))⟩
  , .deliver ⟨4, 1, .request (.accept ⟨12, 4⟩ 3)⟩
  , .deliver ⟨4, 2, .request (.accept ⟨12, 4⟩ 3)⟩
  , .deliver ⟨4, 3, .request (.accept ⟨12, 4⟩ 3)⟩
  , .deliver ⟨1, 4, .response (.accepted ⟨12, 4⟩)⟩
  , .deliver ⟨2, 4, .response (.accepted ⟨12, 4⟩)⟩
  , .deliver ⟨3, 4, .response (.accepted ⟨12, 4⟩)⟩
  , .deliver ⟨4, 4, .request (.learn 3)⟩ ]

/-- The `chosen` fields of replicas 2 and 4 after running `agreementScript`. -/
def agreementRun : Except Unit (Option Nat × Option Nat) :=
  (runScript (initCluster {1, 2, 3, 4, 5}) agreementScript).map
    (fun c => ((c.nodes 2).chosen, (c.nodes 4).chosen))

/-- A closed-cluster execution on `{1,2,3}` reaching a replica whose accepted
sequence number exceeds its promise: node 1 proposes with ballot (5,1), nodes
2 and 3 promise it, node 1 then proposes again with ballot (9,1) and counts
the stale promises for (5,1) toward the new round, so its Accept for (9,1)
reaches node 2, which accepts it while `last_promised` is still (5,1). -/
def staleAcceptScript : List Event :=
  [ .clientPropose 1 5 7
  , .deliver ⟨1, 2, .request (.prepare ⟨5, 1⟩)⟩
  , .deliver ⟨1, 3, .request (.prepare ⟨5, 1⟩)⟩
  , .clientPropose 1 9 8
  , .deliver ⟨2, 1, .response (.prepare none)⟩
  , .deliver ⟨3, 1, .response (.prepare none)⟩
  , .deliver ⟨1, 2, .request (.accept ⟨9, 1⟩ 8)⟩ ]

/-- Node 2's `(last_promised, last_accepted_proposal)` after
`staleAcceptScript`. -/
def staleAcceptRun : Except Unit (Option SequenceNumber × Option AcceptedProposal) :=
  (runScript (initCluster {1, 2, 3}) staleAcceptScript).map
    (fun c => ((c.nodes 2).last_promised, (c.nodes 2).last_accepted_proposal))

/-- A proposer on the cluster `{1,2,3,4,5}` with an active proposal for
ballot (12,4), wanting value 4, before any promise has arrived. -/
def adoptState : NodeState :=
  ⟨4, {1, 2, 3, 4, 5}, some ⟨⟨12, 4⟩, none, 4, none, ∅, ∅⟩, some ⟨12, 4⟩, none, none⟩

/-- Feed `adoptState` three promises whose accepted proposals are, in arrival
order, ((5,1), 1), ((10,2), 2) and ((7,3), 3), and return the final state. -/
def adoptRun : Except Unit NodeState :=
  (handleResponse adoptState 1 (.prepare (some ⟨⟨5, 1⟩, 1⟩))).bind fun x =>
  (handleResponse x.1 2 (.prepare (some ⟨⟨10, 2⟩, 2⟩))).bind fun x =>
  (handleResponse x.1 3 (.prepare (some ⟨⟨7, 3⟩, 3⟩))).map Prod.fst

/-- A replica that has already learned the chosen value 5. -/
def chosenState : NodeState :=
  ⟨1, {1, 2, 3}, none, none, none, some 5⟩

/-- A proposal for ballot (5,1), wanting value 7, one promise short of the
majority on `{1,2,3}`: `prepared = {2}`. -/
def almostMajorityProposal : Proposal :=
  ⟨⟨5, 1⟩, none, 7, none, {2}, ∅⟩

/-- A proposer on `{1,2,3}` holding `almostMajorityProposal`. -/
def almostMajorityState : NodeState :=
  ⟨1, {1, 2, 3}, some almostMajorityProposal, none, none, none⟩

/-- A replica that has promised ballot (3,1) and accepted nothing. -/
def promisedState : NodeState :=
  ⟨2, {1, 2, 3}, none, some ⟨3, 1⟩, none, none⟩

/-- A replica with an active proposal for ballot (5,1) used to exercise the
stale-`Accepted` path. -/
def staleSeqState : NodeState :=
  ⟨2, {1, 2, 3}, some ⟨⟨5, 1⟩, none, 7, none, ∅, ∅⟩, none, none, none⟩

/-- Run two client proposes on a fresh node 1 at the same millisecond reading
100, and return the ballots of the two proposals. -/
def sameClockRun : Except Unit (Option SequenceNumber × Option SequenceNumber) :=
  (handleRequest (NodeState.init 1 {1, 2, 3}) 100 0 (.propose 7)).bind fun x =>
  (handleRequest x.1 100 0 (.propose 8)).map fun y =>
    (x.1.proposal.map Proposal.seq, y.1.proposal.map Proposal.seq)

/-- A proposal for ballot (5,1) whose `prepared` set `{1,2,3}` has already
grown strictly beyond the majority threshold of the peer set `{1,2,3}`. -/
def beyondMajorityProposal : Proposal :=
  ⟨⟨5, 1⟩, some 7, 7, some ⟨2, 2⟩, {1, 2, 3}, ∅⟩

/-- A proposer on `{1,2,3}` holding `beyondMajorityProposal`. -/
def beyondMajorityState : NodeState :=
  ⟨1, {1, 2, 3}, some beyondMajorityProposal, none, none, none⟩

/-- The order on `Option SequenceNumber` used to state promise monotonicity:
an unset promise precedes everything. -/
def leOptSeq : Option SequenceNumber → Option SequenceNumber → Prop
  | none, _ => True
  | some _, none => False
  | some a, some b => a.le b

/-! ### Helper lemmas -/

theorem SequenceNumber.le_refl (a : SequenceNumber) : a.le a :=
  Or.inr ⟨rfl, Nat.le_refl _⟩

theorem leOptSeq_refl (x : Option SequenceNumber) : leOptSeq x x := by
  cases x with
  | none => trivial
  | some a => exact SequenceNumber.le_refl a

theorem toLE_length (k n : Nat) : (toLE k n).length = k := by
  induction k generalizing n with
  | zero => rfl
  | succ k ih => simp [toLE, ih]

theorem dLE_toLE (k n : Nat) (rest : List Nat) (h : n < 256 ^ k) :
    dLE k (toLE k n ++ rest) = some (n, rest) := by
  induction k generalizing n with
  | zero =>
      have : n = 0 := by simpa using h
      subst this
      rfl
  | succ k ih =>
      have hdiv : n / 256 < 256 ^ k := by
        rw [Nat.div_lt_iff_lt_mul (by norm_num : 0 < 256)]
        calc n < 256 ^ (k + 1) := h
        _ = 256 ^ k * 256 := by ring
      simp [toLE, dLE, ih (n / 256) hdiv, Nat.mod_add_div n 256]

theorem dBE_toBE (k n : Nat) (rest : List Nat) (h : n < 256 ^ k) :
    dBE k (toBE k n ++ rest) = some (n, rest) := by
  induction k generalizing n with
  | zero =>
      have : n = 0 := by simpa using h
      subst this
      rfl
  | succ k ih =>
      have hmod : n % 256 ^ k < 256 ^ k := Nat.mod_lt _ (by positivity)
      simp [toBE, dBE, ih (n % 256 ^ k) hmod]
      rw [Nat.mul_comm]
      exact Nat.div_add_mod n (256 ^ k)

theorem deSeq_serSeq (q : SequenceNumber) (h : seqWf q = true) (rest : List Nat) :
    deSeq (serSeq q ++ rest) = some (q, rest) := by
  simp only [seqWf, Bool.and_eq_true, decide_eq_true_eq] at h
  simp [serSeq, deSeq, List.append_assoc, dLE_toLE _ _ _ h.1, dLE_toLE _ _ _ h.2]

theorem deOptAcc_serOptAcc (o : Option AcceptedProposal) (h : optAccWf o = true)
    (rest : List Nat) : deOptAcc (serOptAcc o ++ rest) = some (o, rest) := by
  cases o with
  | none => rfl
  | some a =>
      simp only [optAccWf, accWf, Bool.and_eq_true, decide_eq_true_eq] at h
      simp [serOptAcc, deOptAcc, List.append_assoc, deSeq_serSeq a.seq h.1,
        dLE_toLE _ _ _ h.2]

theorem deRequest_serRequest (r : Request) (h : requestWf r = true) (rest : List Nat) :
    deRequest (serRequest r ++ rest) = some (r, rest) := by
  cases r with
  | propose v =>
      simp only [requestWf, decide_eq_true_eq] at h
      simp [serRequest, deRequest, List.append_assoc,
        dLE_toLE 4 0 _ (by norm_num), dLE_toLE _ _ _ h]
  | prepare q =>
      simp only [requestWf] at h
      simp [serRequest, deRequest, List.append_assoc,
        dLE_toLE 4 1 _ (by norm_num), deSeq_serSeq q h]
  | accept q v =>
      simp only [requestWf, Bool.and_eq_true, decide_eq_true_eq] at h
      simp [serRequest, deRequest, List.append_assoc,
        dLE_toLE 4 2 _ (by norm_num), deSeq_serSeq q h.1, dLE_toLE _ _ _ h.2]
  | learn v =>
      simp only [requestWf, decide_eq_true_eq] at h
      simp [serRequest, deRequest, List.append_assoc,
        dLE_toLE 4 3 _ (by norm_num), dLE_toLE _ _ _ h]
  | query =>
      simp [serRequest, deRequest, dLE_toLE 4 4 _ (by norm_num)]

theorem deResponse_serResponse (r : Response) (h : responseWf r = true) (rest : List Nat) :
    deResponse (serResponse r ++ rest) = some (r, rest) := by
  cases r with
  | prepare acc =>
      simp only [responseWf] at h
      simp [serResponse, deResponse, List.append_assoc,
        dLE_toLE 4 0 _ (by norm_num), deOptAcc_serOptAcc acc h]
  | accepted q =>
      simp only [responseWf] at h
      simp [serResponse, deResponse, List.append_assoc,
        dLE_toLE 4 1 _ (by norm_num), deSeq_serSeq q h]
  | query val =>
      cases val with
      | none =>
          simp [serResponse, deResponse, List.append_assoc,
            dLE_toLE 4 2 _ (by norm_num)]
      | some v =>
          simp only [responseWf, decide_eq_true_eq] at h
          simp [serResponse, deResponse, List.append_assoc,
            dLE_toLE 4 2 _ (by norm_num), dLE_toLE _ _ _ h]

theorem deDatagram_serDatagram (d : Datagram) (h : dgramWf d = true) (rest : List Nat) :
    deDatagram (serDatagram d ++ rest) = some (d, rest) := by
  cases d with
  | request r =>
      simp only [dgramWf] at h
      simp [serDatagram, deDatagram, List.append_assoc,
        dLE_toLE 4 0 _ (by norm_num), deRequest_serRequest r h]
  | response r =>
      simp only [dgramWf] at h
      simp [serDatagram, deDatagram, List.append_assoc,
        dLE_toLE 4 1 _ (by norm_num), deResponse_serResponse r h]

theorem serDatagram_length_le (d : Datagram) : (serDatagram d).length ≤ 512 := by
  cases d with
  | request r =>
      cases r <;> simp [serDatagram, serRequest, serSeq, toLE_length]
  | response r =>
      cases r with
      | prepare acc =>
          cases acc <;> simp [serDatagram, serResponse, serOptAcc, serSeq, toLE_length]
      | accepted q =>
          simp [serDatagram, serResponse, serSeq, toLE_length]
      | query val =>
          cases val <;> simp [serDatagram, serResponse, toLE_length]

/-! ### Claim theorems -/

/-- Claim C1: the claim states that in every finite execution driven by the
replica step function, any two replicas with a set `chosen` agree.  The code
violates this: running the protocol-generated execution `agreementScript` on
the cluster `{1,2,3,4,5}` ends with replica 2 having `chosen = some 2` and
replica 4 having `chosen = some 3`.  The root cause is the value-adoption
slip shown in `adopted_value_not_from_highest`. -/
theorem agreement_violated :
    agreementRun.toOption = some (some 2, some 3) ∧ (2 : Nat) ≠ 3 :=
  ⟨by decide, by decide⟩

/-- Claim C2: the claim states that after any sequence of promises the
proposer's `proposal.value` equals the value of the maximum-sequence accepted
proposal among them.  Feeding the promises ((5,1),1), ((10,2),2), ((7,3),3)
in that order leaves `proposal.value = some 3` and `highest_seq` latched at
(5,1) — `get_or_insert` never raises `highest_seq` past the first observed
ballot — although the maximum-sequence accepted proposal among the three is
((10,2), 2) and 3 ≠ 2. -/
theorem adopted_value_not_from_highest :
    (adoptRun.map (fun s => s.proposal.map (fun p => (p.value, p.highest_seq)))).toOption
      = some (some (some 3, some ⟨5, 1⟩)) ∧
    SequenceNumber.lt ⟨5, 1⟩ ⟨10, 2⟩ ∧ SequenceNumber.lt ⟨7, 3⟩ ⟨10, 2⟩ ∧ (3 : Nat) ≠ 2 :=
  ⟨by decide, by decide, by decide, by decide⟩

/-- Claim C3, counterexample: the claimed invariant
`last_accepted_proposal.seq ≤ last_promised` fails in a reachable state.  The
closed-cluster execution `staleAcceptScript` leaves replica 2 with
`last_promised = (5,1)` but `last_accepted_proposal.seq = (9,1)`, because the
`Accept` handler never raises `last_promised`. -/
theorem accepted_seq_above_promised_reachable :
    staleAcceptRun.toOption = some (some ⟨5, 1⟩, some ⟨⟨9, 1⟩, 8⟩) ∧
      ¬ SequenceNumber.le ⟨9, 1⟩ ⟨5, 1⟩ :=
  ⟨by decide, by decide⟩

/-- Claim C3, amended: a handler step that accepts an `Accept{seq, value}`
request leaves `last_promised` unchanged (the record update touches only
`last_accepted_proposal`) and satisfies `last_promised ≤ seq` whenever
`last_promised` is set — the inequality holds in this direction at the
accepting step; it is not an invariant of all reachable states. -/
theorem accept_step_keeps_promise (s : NodeState) (now src : Nat)
    (q : SequenceNumber) (v : Nat) (h : promisedOk s.last_promised q = true) :
    handleRequest s now src (.accept q v) =
      .ok ({ s with last_accepted_proposal := some ⟨q, v⟩ },
        [⟨{src}, .response (.accepted q)⟩]) ∧
    ∀ lp, s.last_promised = some lp → lp.le q := by
  constructor
  · simp [handleRequest, h]
  · intro lp hlp
    rw [hlp] at h
    simpa [promisedOk] using h

/-- Claim C3, witness for `accept_step_keeps_promise` at a concrete replica
that has promised (3,1) and receives `Accept` for ballot (5,2). -/
theorem accept_step_keeps_promise_witness :
    promisedOk promisedState.last_promised ⟨5, 2⟩ = true ∧
    (handleRequest promisedState 0 9 (.accept ⟨5, 2⟩ 4) =
      .ok ({ promisedState with last_accepted_proposal := some ⟨⟨5, 2⟩, 4⟩ },
        [⟨{9}, .response (.accepted ⟨5, 2⟩)⟩]) ∧
     ∀ lp, promisedState.last_promised = some lp → lp.le ⟨5, 2⟩) :=
  ⟨by decide, accept_step_keeps_promise promisedState 0 9 ⟨5, 2⟩ 4 (by decide)⟩

/-- Claim C4, counterexample: on a replica with `chosen = some 5`, handling
`Propose{value = 5}` is not a logged drop — it installs a fresh proposal for
ballot (20,1) and broadcasts `Prepare` to the peer set (the handler never
consults `chosen`).  The last conjunct records that `chosen` was indeed set. -/
theorem propose_after_chosen_not_dropped :
    (handleRequest chosenState 20 0 (.propose 5)).toOption.map
        (fun x => (x.1.proposal, x.2))
      = some (some ⟨⟨20, 1⟩, none, 5, none, ∅, ∅⟩,
          [⟨{1, 2, 3}, .request (.prepare ⟨20, 1⟩)⟩]) ∧
    chosenState.chosen = some 5 :=
  ⟨by decide, by decide⟩

/-- Claim C4, amended: handling `Propose{value}` always — regardless of
`chosen` — replaces the active proposal with a fresh one for the ballot
`(now, self_id)` and broadcasts `Prepare` to `peers_id`; every other field,
in particular `chosen`, is unchanged. -/
theorem propose_always_starts_round (s : NodeState) (now src v : Nat) :
    handleRequest s now src (.propose v) =
      .ok ({ s with proposal := some ⟨⟨now, s.self_id⟩, none, v, none, ∅, ∅⟩ },
        [⟨s.peers_id, .request (.prepare ⟨now, s.self_id⟩)⟩]) := rfl

/-- Claim C5, counterexample: when `prepared` first reaches the majority
threshold, the `Accept` broadcast goes to the `prepared` set, not to
`peers_id`: on `almostMajorityState` (peer set `{1,2,3}`) the promise from 3
completes the majority `{2,3}` and the emitted `Accept` has destination ids
`[2,3]`, while the peer set is `[1,2,3]`. -/
theorem accept_sent_to_prepared_not_peers :
    (handleResponse almostMajorityState 3 (.prepare none)).toOption.map
        (fun x => x.2.map (fun o => (sortedIds o.dst, o.dgram)))
      = some [([2, 3], .request (.accept ⟨5, 1⟩ 7))] ∧
    sortedIds almostMajorityState.peers_id = [1, 2, 3] ∧
    ([2, 3] : List Nat) ≠ [1, 2, 3] :=
  ⟨by decide, by decide, by decide⟩

/-- Claim C5, amended: when the `prepared` set reaches exactly
`⌊N/2⌋ + 1 = ⌈(N+1)/2⌉`, the proposer broadcasts
`Accept{seq = proposal.seq, value = proposal.value defaulted to wanted_value}`
with destination the updated `prepared` set (not `peers_id`); the stored
proposal records the broadcast value and the adoption outcome. -/
theorem majority_accept_broadcast (s : NodeState) (src : Nat)
    (acc : Option AcceptedProposal) (p : Proposal) (hp : s.proposal = some p)
    (hcard : (insert src p.prepared).card = s.peers_id.card / 2 + 1) :
    handleResponse s src (.prepare acc) =
      .ok ({ s with proposal := some { p with
              prepared := insert src p.prepared,
              value := some ((adopt s.peers_id.card p (insert src p.prepared) acc).1.getD
                p.wanted_value),
              highest_seq := (adopt s.peers_id.card p (insert src p.prepared) acc).2 } },
        [⟨insert src p.prepared,
          .request (.accept p.seq
            ((adopt s.peers_id.card p (insert src p.prepared) acc).1.getD p.wanted_value))⟩]) := by
  simp [handleResponse, hp, hcard]

/-- Claim C5, witness for `majority_accept_broadcast` at `almostMajorityState`
with the majority-completing promise from node 3. -/
theorem majority_accept_broadcast_witness :
    (insert 3 almostMajorityProposal.prepared).card =
      almostMajorityState.peers_id.card / 2 + 1 ∧
    handleResponse almostMajorityState 3 (.prepare none) =
      .ok ({ almostMajorityState with proposal := some { almostMajorityProposal with
              prepared := insert 3 almostMajorityProposal.prepared,
              value := some ((adopt almostMajorityState.peers_id.card almostMajorityProposal
                (insert 3 almostMajorityProposal.prepared) none).1.getD
                almostMajorityProposal.wanted_value),
              highest_seq := (adopt almostMajorityState.peers_id.card almostMajorityProposal
                (insert 3 almostMajorityProposal.prepared) none).2 } },
        [⟨insert 3 almostMajorityProposal.prepared,
          .request (.accept almostMajorityProposal.seq
            ((adopt almostMajorityState.peers_id.card almostMajorityProposal
              (insert 3 almostMajorityProposal.prepared) none).1.getD
              almostMajorityProposal.wanted_value))⟩]) :=
  ⟨by decide,
   majority_accept_broadcast almostMajorityState 3 none almostMajorityProposal rfl (by decide)⟩

/-- Claim C6: frame round-trip.  For every well-formed datagram and every
source id in `usize` range, reading back the frame written by
`encode_with_src` — 8-byte big-endian source id, 8-byte big-endian payload
length, then the serialized datagram — yields exactly `(src, d)`. -/
theorem frame_roundtrip (d : Datagram) (src : Nat)
    (hsrc : src < 2 ^ 64) (hd : dgramWf d = true) :
    read_incoming (encode_with_src d src) = some (src, d) := by
  have h64 : (2 : Nat) ^ 64 = 256 ^ 8 := by norm_num
  have hsrc' : src < 256 ^ 8 := h64 ▸ hsrc
  have hlen : (serDatagram d).length < 256 ^ 8 :=
    lt_of_le_of_lt (serDatagram_length_le d) (by norm_num)
  have hmod : src % 2 ^ 64 = src := Nat.mod_eq_of_lt hsrc
  simp only [encode_with_src, read_incoming, hmod]
  rw [dBE_toBE 8 src _ hsrc']
  simp only [Option.bind_eq_bind, Option.some_bind]
  rw [dBE_toBE 8 (serDatagram d).length _ hlen]
  simp only [Option.some_bind]
  have hnotlt : ¬ (serDatagram d).length < (serDatagram d).length := lt_irrefl _
  have hnot512 : ¬ 512 < (serDatagram d).length :=
    not_lt_of_le (serDatagram_length_le d)
  simp only [hnotlt, if_false, hnot512, List.take_length]
  have hde := deDatagram_serDatagram d hd []
  rw [List.append_nil] at hde
  simp [hde]

/-- Claim C6, witness: the round-trip at the concrete frame for
`Request::Accept{seq = (3,1), value = 9}` from source 2. -/
theorem frame_roundtrip_witness :
    (2 : Nat) < 2 ^ 64 ∧ dgramWf (.request (.accept ⟨3, 1⟩ 9)) = true ∧
      read_incoming (encode_with_src (.request (.accept ⟨3, 1⟩ 9)) 2) =
        some (2, .request (.accept ⟨3, 1⟩ 9)) :=
  ⟨by decide, by decide, frame_roundtrip _ 2 (by decide) (by decide)⟩

/-- Claim C7: the claim states that successive `Propose` invocations on one
replica yield strictly increasing ballots.  `next_seq` is a bare clock read:
two `Propose` requests handled at the same millisecond reading 100 produce
the identical ballot (100, 1), which is not strictly increasing — the code
neither forces the clock forward nor adds a sub-counter. -/
theorem same_millisecond_ballot_collision :
    sameClockRun.toOption = some (some ⟨100, 1⟩, some ⟨100, 1⟩) ∧
      ¬ SequenceNumber.lt ⟨100, 1⟩ ⟨100, 1⟩ :=
  ⟨by decide, by decide⟩

/-- Claim C8, counterexample: an `Accepted` response arriving when the
replica has no active proposal is not dropped — the handler panics (modelled
as `.error ()`), contradicting "returns normally with no abort". -/
theorem accepted_without_proposal_aborts :
    handleResponse (NodeState.init 1 {1, 2, 3}) 2 (.accepted ⟨5, 1⟩) = .error () := rfl

/-- Claim C8, amended: an `Accepted{seq}` response is dropped as stale — no
state change, no output — only when an active proposal exists and `seq`
differs from its ballot; with no active proposal the handler aborts
(`panic!`). -/
theorem stale_accepted_handling (s : NodeState) (src : Nat) (q : SequenceNumber) :
    (s.proposal = none → handleResponse s src (.accepted q) = .error ()) ∧
    (∀ p, s.proposal = some p → q ≠ p.seq →
      handleResponse s src (.accepted q) = .ok (s, [])) := by
  constructor
  · intro h
    simp [handleResponse, h]
  · intro p hp hq
    simp [handleResponse, hp, hq]

/-- Claim C8, witness for `stale_accepted_handling`: both branches at
concrete states — a fresh replica aborts, a replica with an active proposal
for (5,1) drops `Accepted` for (6,1) unchanged. -/
theorem stale_accepted_handling_witness :
    ((NodeState.init 2 {1, 2, 3}).proposal = none ∧
      handleResponse (NodeState.init 2 {1, 2, 3}) 3 (.accepted ⟨5, 1⟩) = .error ()) ∧
    (staleSeqState.proposal = some ⟨⟨5, 1⟩, none, 7, none, ∅, ∅⟩ ∧
      (⟨6, 1⟩ : SequenceNumber) ≠ (⟨5, 1⟩ : SequenceNumber) ∧
      handleResponse staleSeqState 3 (.accepted ⟨6, 1⟩) = .ok (staleSeqState, [])) :=
  ⟨⟨rfl, (stale_accepted_handling (NodeState.init 2 {1, 2, 3}) 3 ⟨5, 1⟩).1 rfl⟩,
   ⟨rfl, by decide,
    (stale_accepted_handling staleSeqState 3 ⟨6, 1⟩).2 _ rfl (by decide)⟩⟩

/-- Claim C9: promise monotonicity.  For every replica state and every
incoming datagram, if the handler returns normally then `last_promised`
after the step is greater than or equal to its value before, under the
`SequenceNumber` order (timestamp first, `server_id` tie-break), with an
unset promise below everything. -/
theorem last_promised_monotonic (s : NodeState) (now src : Nat) (d : Datagram)
    (s' : NodeState) (outs : List Outgoing)
    (h : handleIncoming s now src d = .ok (s', outs)) :
    leOptSeq s.last_promised s'.last_promised := by
  cases d with
  | request req =>
      cases req with
      | propose v =>
          simp only [handleIncoming, handleRequest, Except.ok.injEq, Prod.mk.injEq] at h
          obtain ⟨rfl, -⟩ := h
          exact leOptSeq_refl _
      | prepare seq =>
          simp only [handleIncoming, handleRequest] at h
          by_cases hb : promisedOk s.last_promised seq = true
          · rw [if_pos hb] at h
            simp only [Except.ok.injEq, Prod.mk.injEq] at h
            obtain ⟨rfl, -⟩ := h
            cases hlp : s.last_promised with
            | none => trivial
            | some lp =>
                rw [hlp] at hb
                simpa [promisedOk, leOptSeq] using hb
          · rw [if_neg hb] at h
            simp only [Except.ok.injEq, Prod.mk.injEq] at h
            obtain ⟨rfl, -⟩ := h
            exact leOptSeq_refl _
      | accept seq v =>
          simp only [handleIncoming, handleRequest] at h
          by_cases hb : promisedOk s.last_promised seq = true
          · rw [if_pos hb] at h
            simp only [Except.ok.injEq, Prod.mk.injEq] at h
            obtain ⟨rfl, -⟩ := h
            exact leOptSeq_refl _
          · rw [if_neg hb] at h
            simp only [Except.ok.injEq, Prod.mk.injEq] at h
            obtain ⟨rfl, -⟩ := h
            exact leOptSeq_refl _
      | learn v =>
          simp only [handleIncoming, handleRequest] at h
          repeat' split at h
          all_goals
            first
            | exact (Except.noConfusion h : False).elim
            | (simp only [Except.ok.injEq, Prod.mk.injEq] at h
               obtain ⟨rfl, -⟩ := h
               exact leOptSeq_refl _)
      | query =>
          simp only [handleIncoming, handleRequest, Except.ok.injEq, Prod.mk.injEq] at h
          obtain ⟨rfl, -⟩ := h
          exact leOptSeq_refl _
  | response resp =>
      have hsame : s'.last_promised = s.last_promised := by
        simp only [handleIncoming, handleResponse] at h
        repeat' split at h
        all_goals
          first
          | exact (Except.noConfusion h : False).elim
          | (simp only [Except.ok.injEq, Prod.mk.injEq] at h
             obtain ⟨rfl, -⟩ := h
             rfl)
      rw [hsame]
      exact leOptSeq_refl _

/-- Claim C9, witness for `last_promised_monotonic`: a fresh replica handling
`Prepare` for ballot (5,1) moves `last_promised` from `none` to (5,1). -/
theorem last_promised_monotonic_witness :
    handleIncoming (NodeState.init 1 {1, 2, 3}) 0 2 (.request (.prepare ⟨5, 1⟩)) =
      .ok ({ NodeState.init 1 {1, 2, 3} with last_promised := some ⟨5, 1⟩ },
        [⟨{2}, .response (.prepare none)⟩]) ∧
    leOptSeq (NodeState.init 1 {1, 2, 3}).last_promised
      ({ NodeState.init 1 {1, 2, 3} with last_promised := some ⟨5, 1⟩ } : NodeState).last_promised :=
  ⟨rfl,
   last_promised_monotonic (NodeState.init 1 {1, 2, 3}) 0 2 (.request (.prepare ⟨5, 1⟩))
     _ _ rfl⟩

/-- Claim C10: once the active proposal's `prepared` set is strictly beyond
the majority threshold `⌊N/2⌋ + 1`, handling a further `Response::Prepare`
only inserts the sender into `prepared`: `value`, `highest_seq` and every
other field are untouched even if the promise carries an accepted proposal
with a higher sequence number than any seen before, and no message is sent. -/
theorem beyond_majority_prepare_only_grows (s : NodeState) (src : Nat)
    (acc : Option AcceptedProposal) (p : Proposal) (hp : s.proposal = some p)
    (hover : s.peers_id.card / 2 + 1 < p.prepared.card) :
    handleResponse s src (.prepare acc) =
      .ok ({ s with proposal := some { p with prepared := insert src p.prepared } }, []) := by
  have hle : p.prepared.card ≤ (insert src p.prepared).card :=
    Finset.card_le_card (Finset.subset_insert _ _)
  have h1 : ¬ (insert src p.prepared).card ≤ s.peers_id.card / 2 + 1 := by omega
  have h2 : (insert src p.prepared).card ≠ s.peers_id.card / 2 + 1 := by omega
  have hadopt : adopt s.peers_id.card p (insert src p.prepared) acc =
      (p.value, p.highest_seq) := by
    cases acc with
    | none => rfl
    | some a =>
        cases a with
        | mk q v => simp [adopt, h1]
  simp [handleResponse, hp, h2, hadopt]

/-- Claim C10, witness for `beyond_majority_prepare_only_grows` at
`beyondMajorityState`, whose promise carries the accepted proposal
((50,5), 9), higher than the latched `highest_seq` (2,2). -/
theorem beyond_majority_prepare_only_grows_witness :
    beyondMajorityState.peers_id.card / 2 + 1 < beyondMajorityProposal.prepared.card ∧
    handleResponse beyondMajorityState 2 (.prepare (some ⟨⟨50, 5⟩, 9⟩)) =
      .ok ({ beyondMajorityState with proposal := some { beyondMajorityProposal with
              prepared := insert 2 beyondMajorityProposal.prepared } }, []) :=
  ⟨by decide,
   beyond_majority_prepare_only_grows beyondMajorityState 2 (some ⟨⟨50, 5⟩, 9⟩)
     beyondMajorityProposal rfl (by decide)⟩

end ToyPaxos
